import Mathlib

/-!
Verification of the SIR parameter-estimation program `corona_sir.py`.

The core numeric functions (`sir_ode`, `solveode`, `optSolveOde`, `iniguess`,
`parmest`, `loadData`) are embedded as Lean functions over `ℚ`.  Python
floating-point division by a zero denominator is fallible, so `sir_ode`
returns an `Option`; integration failure propagates.  The external library
collaborators (scipy's `solve_ivp` integrator, scipy's Nelder-Mead
`minimize`, pandas CSV reading) are not part of the repository: `solve_ivp`
is modelled as an explicit one-step method on the integer sample grid,
`minimize` as an oracle parameter of `parmest`, and the parsed CSV as a list
of rows.
-/

namespace CoronaSir

/-- Compartment state, an (S, I, R) triple. -/
abbrev SIRState := ℚ × ℚ × ℚ

/-- The SIR differential equation, from `sir_ode` (src/corona_sir.py,
lines 89-111).  The time argument `t` is unused, exactly as in the source.
The rate law divides by the total population `N = S + I + R`; a zero
denominator is the degenerate case (Python float division by zero /
non-finite numpy output), modelled as `none`. -/
def sir_ode (t : ℚ) (SIR : SIRState) (beta gamma : ℚ) : Option SIRState :=
  let S := SIR.1
  let I := SIR.2.1
  let R := SIR.2.2
  let N := S + I + R
  if N = 0 then none
  else
    let dS := -beta * I * S / N
    let dI := beta * S * I / N - gamma * I
    let dR := gamma * I
    some (dS, dI, dR)

/-- Modelled from the spec: `scipy.integrate.solve_ivp` (an external library
collaborator, not code of this repository) numerically integrates the vector
field `f` over the span `(0, tmax)` and reports the state at each requested
sample time `t_eval = range tmax`.  It is modelled as the explicit one-step
(Euler) method with unit step on the integer grid: sample `k` is the state
at time `k`, and each unit interval advances the state by one evaluation of
`f`.  A failing field evaluation aborts the whole run with `none`.
`odeGrid f k y n` returns the list of `n` sampled states starting from state
`y` at time `k`. -/
def odeGrid (f : ℚ → SIRState → Option SIRState) : ℕ → SIRState → ℕ → Option (List SIRState)
  | _, _, 0 => some []
  | k, y, n + 1 =>
    match f (k : ℚ) y with
    | none => none
    | some d =>
      match odeGrid f (k + 1) (y.1 + d.1, y.2.1 + d.2.1, y.2.2 + d.2.2) n with
      | none => none
      | some rest => some (y :: rest)

/-- `solveode` (src/corona_sir.py, lines 130-153): unpack `(S0, I0, R0)` and
`(beta, gamma, tmax)`, integrate `sir_ode` over `(0, tmax)` with
`t_eval = range tmax`, and return the `(t, S, I, R)` series. -/
def solveode (SIR : SIRState) (bgt : ℚ × ℚ × ℕ) :
    Option (List ℚ × List ℚ × List ℚ × List ℚ) :=
  let S0 := SIR.1
  let I0 := SIR.2.1
  let R0 := SIR.2.2
  let beta := bgt.1
  let gamma := bgt.2.1
  let tmax := bgt.2.2
  match odeGrid (fun t y => sir_ode t y beta gamma) 0 (S0, I0, R0) tmax with
  | none => none
  | some ys =>
    some ((List.range tmax).map (fun k : ℕ => (k : ℚ)),
          ys.map (fun y => y.1),
          ys.map (fun y => y.2.1),
          ys.map (fun y => y.2.2))

/-- `numpy.linalg.norm` on a vector of rationals: the Euclidean norm, i.e.
the square root of the sum of the squared entries. -/
noncomputable def norm (v : List ℚ) : ℝ :=
  Real.sqrt ((v.map (fun x : ℚ => ((x : ℝ)) ^ 2)).sum)

/-- `optSolveOde` (src/corona_sir.py, lines 114-127): split `IRC` into
`I0 = IRC[0]`, `R0 = IRC[1]` and the observed series `C = IRC[2:]`, set
`tmax = len C`, integrate from state `(bgS[2], I0, R0)` with parameters
`(bgS[0], bgS[1])`, and return `norm (C - (I + R))`.  Integration failure
propagates. -/
noncomputable def optSolveOde (bgS : ℚ × ℚ × ℚ) (IRC : ℚ × ℚ × List ℚ) : Option ℝ :=
  let C := IRC.2.2
  let tmax := C.length
  match solveode (bgS.2.2, IRC.1, IRC.2.1) (bgS.1, bgS.2.1, tmax) with
  | none => none
  | some tSIR =>
    some (norm (List.zipWith (fun c ir => c - ir) C
      (List.zipWith (fun a b => a + b) tSIR.2.2.1 tSIR.2.2.2)))

/-- `iniguess` (src/corona_sir.py, lines 65-86): fixed guesses
`betaGuess = gammaGuess = 10`, `SGuess = 1e9 - firstCaseCount`,
`I0 = firstCaseCount`, `R0 = 0`. -/
def iniguess (firstCaseCount : ℚ) : ℚ × ℚ × ℚ × ℚ × ℚ :=
  let betaGuess : ℚ := 10
  let gammaGuess : ℚ := 10
  let SGuess : ℚ := 10 ^ 9 - firstCaseCount
  let I0 := firstCaseCount
  let R0 : ℚ := 0
  (betaGuess, gammaGuess, SGuess, I0, R0)

/-- The result object of `scipy.optimize.minimize`: the parts read by
`parmest` are the `success` flag and the solution point `x`. -/
structure OptResult where
  success : Bool
  x : ℚ × ℚ × ℚ

/-- Modelled from the spec: `scipy.optimize.minimize` with method
Nelder-Mead is an external derivative-free minimizer, not code of this
repository; it is modelled as an oracle taking the objective, the starting
point and the `maxiter` budget. -/
abbrev Minimizer := ((ℚ × ℚ × ℚ) → Option ℝ) → (ℚ × ℚ × ℚ) → ℕ → OptResult

/-- The `maxiter` entry of `optOptions` passed to the minimizer
(src/corona_sir.py, line 50). -/
def optOptionsMaxiter : ℕ := 20000

/-- The fitted parameter dict returned by `parmest`. -/
structure FitResult where
  beta : ℚ
  gamma : ℚ
  S : ℚ
  I0 : ℚ
  R0 : ℚ

/-- `parmest` (src/corona_sir.py, lines 34-62): take the initial guess from
`C[0]`, run the minimizer on `optSolveOde` with `maxiter = 20000`; on
success return the fit, otherwise print and `raise SystemExit(2)`, modelled
as `Except.error 2`. -/
noncomputable def parmest (minimizer : Minimizer) (C : List ℚ) : Except ℕ FitResult :=
  let firstCaseCount := C.headI
  let g := iniguess firstCaseCount
  let I0 := g.2.2.2.1
  let R0 := g.2.2.2.2
  let optRes := minimizer (fun bgS => optSolveOde bgS (I0, R0, C))
    (g.1, g.2.1, g.2.2.1) optOptionsMaxiter
  if optRes.success then
    Except.ok (FitResult.mk optRes.x.1 optRes.x.2.1 optRes.x.2.2 I0 R0)
  else
    Except.error 2

/-- A row of `case_numbers.csv`; the columns the program reads are `region`
and `cases`.  The CSV file itself is external input, modelled as the list of
its parsed rows. -/
structure Row where
  region : String
  cases : ℚ

/-- `loadData` (src/corona_sir.py, lines 16-31): keep the rows whose
`region` column equals the requested region exactly, take their `cases`
column; if no rows match, print and `raise SystemExit(3)`, modelled as
`Except.error 3`. -/
def loadData (table : List Row) (region : String) : Except ℕ (List ℚ) :=
  let C := (table.filter (fun r => r.region == region)).map (fun r => r.cases)
  if C.length = 0 then Except.error 3 else Except.ok C

/-- The main flow of the script (src/corona_sir.py, lines 216-218): load the
data for the region, then estimate parameters.  A fatal `SystemExit` code
propagates as `Except.error`, skipping everything after it. -/
noncomputable def mainFlow (table : List Row) (region : String) (minimizer : Minimizer) :
    Except ℕ FitResult :=
  match loadData table region with
  | Except.error e => Except.error e
  | Except.ok C => parmest minimizer C

/-! Helper lemmas about the embedded definitions. -/

/-- Whenever `sir_ode` is defined, its three derivatives sum to zero. -/
theorem sir_ode_some_sum (t : ℚ) (y : SIRState) (beta gamma : ℚ) (d : SIRState)
    (h : sir_ode t y beta gamma = some d) : d.1 + d.2.1 + d.2.2 = 0 := by
  simp only [sir_ode] at h
  split at h
  · exact absurd h (by simp)
  · injection h with h
    subst h
    ring

/-- Whenever `sir_ode` is defined, the `dR` component is `gamma * I`. -/
theorem sir_ode_dR (t : ℚ) (y : SIRState) (beta gamma : ℚ) (d : SIRState)
    (h : sir_ode t y beta gamma = some d) : d.2.2 = gamma * y.2.1 := by
  simp only [sir_ode] at h
  split at h
  · exact absurd h (by simp)
  · injection h with h
    subst h
    rfl

/-- At a state with no infected, `sir_ode` returns the zero derivative triple
as long as the total population is nonzero. -/
theorem sir_ode_zero_I (t S R beta gamma : ℚ) (h : S + R ≠ 0) :
    sir_ode t (S, 0, R) beta gamma = some (0, 0, 0) := by
  simp [sir_ode, h]

/-- A successful `odeGrid` run returns exactly `n` samples. -/
theorem odeGrid_length (f : ℚ → SIRState → Option SIRState) :
    ∀ (n k : ℕ) (y : SIRState) (ys : List SIRState),
      odeGrid f k y n = some ys → ys.length = n := by
  intro n
  induction n with
  | zero =>
    intro k y ys h
    simp only [odeGrid, Option.some.injEq] at h
    simp [← h]
  | succ n ih =>
    intro k y ys h
    simp only [odeGrid] at h
    cases hf : f (k : ℚ) y with
    | none => simp [hf] at h
    | some d =>
      simp only [hf] at h
      cases hg : odeGrid f (k + 1) (y.1 + d.1, y.2.1 + d.2.1, y.2.2 + d.2.2) n with
      | none => simp [hg] at h
      | some rest =>
        simp only [hg, Option.some.injEq] at h
        subst h
        simp [ih (k + 1) _ rest hg]

/-- If every defined evaluation of the field has derivatives summing to
zero, every sample of a successful `odeGrid` run has the same compartment
sum as the initial state. -/
theorem odeGrid_conserves (f : ℚ → SIRState → Option SIRState)
    (hf : ∀ t y d, f t y = some d → d.1 + d.2.1 + d.2.2 = 0) :
    ∀ (n k : ℕ) (y : SIRState) (ys : List SIRState),
      odeGrid f k y n = some ys →
      ∀ z ∈ ys, z.1 + z.2.1 + z.2.2 = y.1 + y.2.1 + y.2.2 := by
  intro n
  induction n with
  | zero =>
    intro k y ys h z hz
    simp only [odeGrid, Option.some.injEq] at h
    subst h
    exact absurd hz (by simp)
  | succ n ih =>
    intro k y ys h z hz
    simp only [odeGrid] at h
    cases hf0 : f (k : ℚ) y with
    | none => simp [hf0] at h
    | some d =>
      simp only [hf0] at h
      cases hg : odeGrid f (k + 1) (y.1 + d.1, y.2.1 + d.2.1, y.2.2 + d.2.2) n with
      | none => simp [hg] at h
      | some rest =>
        simp only [hg, Option.some.injEq] at h
        subst h
        rcases List.mem_cons.mp hz with rfl | hz
        · rfl
        · have hsum : z.1 + z.2.1 + z.2.2 = y.1 + d.1 + (y.2.1 + d.2.1) + (y.2.2 + d.2.2) :=
            ih (k + 1) _ rest hg z hz
          have hd := hf (k : ℚ) y d hf0
          linarith

/-- A state at which the field always returns the zero derivative is a fixed
point of the grid integration: the run succeeds and every sample is that
state. -/
theorem odeGrid_const_of_fixed (f : ℚ → SIRState → Option SIRState) (y : SIRState)
    (hf : ∀ t, f t y = some (0, 0, 0)) :
    ∀ (n k : ℕ), odeGrid f k y n = some (List.replicate n y) := by
  intro n
  induction n with
  | zero => intro k; simp [odeGrid]
  | succ n ih =>
    intro k
    simp only [odeGrid, hf (k : ℚ)]
    have hy : (y.1 + (0 : ℚ), y.2.1 + (0 : ℚ), y.2.2 + (0 : ℚ)) = y := by simp
    rw [hy, ih (k + 1)]
    simp [List.replicate_succ]

/-- The first sample of a successful nonempty `odeGrid` run is the initial
state. -/
theorem odeGrid_head (f : ℚ → SIRState → Option SIRState) (n k : ℕ) (y : SIRState)
    (ys : List SIRState) (h : odeGrid f k y (n + 1) = some ys) :
    ys.getD 0 (0, 0, 0) = y := by
  simp only [odeGrid] at h
  cases hf : f (k : ℚ) y with
  | none => simp [hf] at h
  | some d =>
    simp only [hf] at h
    cases hg : odeGrid f (k + 1) (y.1 + d.1, y.2.1 + d.2.1, y.2.2 + d.2.2) n with
    | none => simp [hg] at h
    | some rest =>
      simp only [hg, Option.some.injEq] at h
      subst h
      rfl

/-- Consecutive samples of a successful `odeGrid` run are related by one
(defined) evaluation of the field at the earlier sample. -/
theorem odeGrid_chain (f : ℚ → SIRState → Option SIRState) :
    ∀ (n k : ℕ) (y : SIRState) (ys : List SIRState),
      odeGrid f k y n = some ys →
      ∀ i : ℕ, i + 1 < n →
        ∃ d, f ((k + i : ℕ) : ℚ) (ys.getD i (0, 0, 0)) = some d ∧
          ys.getD (i + 1) (0, 0, 0) =
            ((ys.getD i (0, 0, 0)).1 + d.1, (ys.getD i (0, 0, 0)).2.1 + d.2.1,
             (ys.getD i (0, 0, 0)).2.2 + d.2.2) := by
  intro n
  induction n with
  | zero => intro k y ys h i hi; omega
  | succ n ih =>
    intro k y ys h i hi
    have hstep := h
    simp only [odeGrid] at hstep
    cases hf : f (k : ℚ) y with
    | none => simp [hf] at hstep
    | some d =>
      simp only [hf] at hstep
      cases hg : odeGrid f (k + 1) (y.1 + d.1, y.2.1 + d.2.1, y.2.2 + d.2.2) n with
      | none => simp [hg] at hstep
      | some rest =>
        simp only [hg, Option.some.injEq] at hstep
        subst hstep
        cases i with
        | zero =>
          obtain ⟨m, rfl⟩ : ∃ m, n = m + 1 := ⟨n - 1, by omega⟩
          refine ⟨d, ?_, ?_⟩
          · simpa using hf
          · simpa using odeGrid_head f m (k + 1) _ rest hg
        | succ i =>
          have hi' : i + 1 < n := by omega
          obtain ⟨d1, hd1, hd2⟩ := ih (k + 1) _ rest hg i hi'
          refine ⟨d1, ?_, ?_⟩
          · have : ((k + (i + 1) : ℕ) : ℚ) = ((k + 1 + i : ℕ) : ℚ) := by
              congr 1
              omega
            rw [this]
            simpa using hd1
          · simpa using hd2

/-- A successful `solveode` run comes from a successful `odeGrid` run, with
the four returned series being the time grid and the three state
projections. -/
theorem solveode_eq (S0 I0 R0 beta gamma : ℚ) (tmax : ℕ) (ts Ss Is Rs : List ℚ)
    (h : solveode (S0, I0, R0) (beta, gamma, tmax) = some (ts, Ss, Is, Rs)) :
    ∃ ys, odeGrid (fun t y => sir_ode t y beta gamma) 0 (S0, I0, R0) tmax = some ys ∧
      ts = (List.range tmax).map (fun k : ℕ => (k : ℚ)) ∧
      Ss = ys.map (fun y => y.1) ∧ Is = ys.map (fun y => y.2.1) ∧
      Rs = ys.map (fun y => y.2.2) := by
  simp only [solveode] at h
  cases hg : odeGrid (fun t y => sir_ode t y beta gamma) 0 (S0, I0, R0) tmax with
  | none => simp [hg] at h
  | some ys =>
    simp only [hg, Option.some.injEq, Prod.mk.injEq] at h
    exact ⟨ys, rfl, h.1.symm, h.2.1.symm, h.2.2.1.symm, h.2.2.2.symm⟩

/-- The four series of a successful `solveode` run all have length `tmax`. -/
theorem solveode_len (S0 I0 R0 beta gamma : ℚ) (tmax : ℕ) (ts Ss Is Rs : List ℚ)
    (h : solveode (S0, I0, R0) (beta, gamma, tmax) = some (ts, Ss, Is, Rs)) :
    ts.length = tmax ∧ Ss.length = tmax ∧ Is.length = tmax ∧ Rs.length = tmax := by
  obtain ⟨ys, hg, hts, hSs, hIs, hRs⟩ := solveode_eq S0 I0 R0 beta gamma tmax ts Ss Is Rs h
  have hlen := odeGrid_length _ tmax 0 (S0, I0, R0) ys hg
  subst hts hSs hIs hRs
  simp [hlen]

/-- `getD` of a mapped list, at an index inside the list. -/
theorem getD_map_lt {α β : Type} (f : α → β) (l : List α) (i : ℕ) (hd : α) (d : β)
    (h : i < l.length) : (l.map f).getD i d = f (l.getD i hd) := by
  rw [List.getD_eq_getElem l hd h, List.getD_eq_getElem _ d (by simpa using h)]
  simp

/-- `getD` of a list at an index inside the list is a member of the list. -/
theorem getD_mem_of_lt {α : Type} (l : List α) (i : ℕ) (d : α) (h : i < l.length) :
    l.getD i d ∈ l := by
  rw [List.getD_eq_getElem l d h]
  exact List.getElem_mem h

/-- The sum of squared residuals, switched from the list form computed by
the code to an indexed sum over the time steps. -/
theorem residual_sum_sq (C I R : List ℚ) (hI : I.length = C.length)
    (hR : R.length = C.length) :
    ((List.zipWith (fun c ir => c - ir) C
        (List.zipWith (fun a b => a + b) I R)).map (fun x : ℚ => ((x : ℝ)) ^ 2)).sum =
      ∑ i in Finset.range C.length,
        (((I.getD i 0 + R.getD i 0 - C.getD i 0 : ℚ) : ℝ)) ^ 2 := by
  induction C generalizing I R with
  | nil =>
    simp
  | cons c Ct ih =>
    cases I with
    | nil => simp at hI
    | cons a It =>
      cases R with
      | nil => simp at hR
      | cons b Rt =>
        simp only [List.zipWith_cons_cons, List.map_cons, List.sum_cons, List.length_cons]
        rw [Finset.sum_range_succ']
        simp only [List.getD_cons_succ, List.getD_cons_zero]
        rw [ih It Rt (by simpa using hI) (by simpa using hR)]
        push_cast
        ring

/-! Claim theorems. -/

/-- Claim C2: for every compartment state (S, I, R) with nonzero total
population N = S + I + R and every beta, gamma, `sir_ode` returns exactly
the derivative triple (-beta*I*S/N, beta*I*S/N - gamma*I, gamma*I); being a
Lean function, it is pure with no side effects. -/
theorem sir_ode_rate_law (t S I R beta gamma : ℚ) (h : S + I + R ≠ 0) :
    sir_ode t (S, I, R) beta gamma =
      some (-beta * I * S / (S + I + R),
            beta * I * S / (S + I + R) - gamma * I,
            gamma * I) := by
  simp only [sir_ode]
  rw [if_neg h]
  have hcomm : beta * S * I = beta * I * S := by ring
  rw [hcomm]

/-- Witness for C2 at the concrete state (3, 2, 1) with beta = 5,
gamma = 7. -/
theorem sir_ode_rate_law_witness :
    sir_ode 0 ((3 : ℚ), 2, 1) 5 7 = some (-5, -9, 14) := by
  have h := sir_ode_rate_law 0 3 2 1 5 7 (by norm_num)
  rw [h]
  norm_num

/-- Claim C10: the ODE model is autonomous: `sir_ode` ignores its time
argument, so any two times give the same result on the same state and
parameters. -/
theorem sir_ode_autonomous (t1 t2 : ℚ) (SIR : SIRState) (beta gamma : ℚ) :
    sir_ode t1 SIR beta gamma = sir_ode t2 SIR beta gamma := rfl

/-- Claim C8: when the total population N = S + I + R is zero, `sir_ode`
fails (its rate law divides by N, modelled as `none`); for every state with
N nonzero that branch is unreachable and `sir_ode` returns (finite rational)
derivatives. -/
theorem sir_ode_degenerate_population (t S I R beta gamma : ℚ) :
    (S + I + R = 0 → sir_ode t (S, I, R) beta gamma = none) ∧
    (S + I + R ≠ 0 → ∃ d : SIRState, sir_ode t (S, I, R) beta gamma = some d) := by
  constructor
  · intro h
    simp [sir_ode, h]
  · intro h
    refine ⟨(-beta * I * S / (S + I + R),
             beta * S * I / (S + I + R) - gamma * I, gamma * I), ?_⟩
    simp only [sir_ode]
    rw [if_neg h]

/-- Witness for C8: the all-zero state fails, a state with population 2
succeeds. -/
theorem sir_ode_degenerate_population_witness :
    sir_ode 0 ((0 : ℚ), 0, 0) 1 1 = none ∧
    ∃ d : SIRState, sir_ode 0 ((1 : ℚ), 1, 0) 2 3 = some d :=
  ⟨(sir_ode_degenerate_population 0 0 0 0 1 1).1 (by norm_num),
   (sir_ode_degenerate_population 0 1 1 0 2 3).2 (by norm_num)⟩

/-- Claim C3: total population is conserved: the derivatives returned by
`sir_ode` always sum to zero, and on every successful `solveode` run the
sum S(t) + I(t) + R(t) at each sampled step equals the initial total
S0 + I0 + R0. -/
theorem population_conservation :
    (∀ (t : ℚ) (y : SIRState) (beta gamma : ℚ) (d : SIRState),
      sir_ode t y beta gamma = some d → d.1 + d.2.1 + d.2.2 = 0) ∧
    (∀ (S0 I0 R0 beta gamma : ℚ) (tmax : ℕ) (ts Ss Is Rs : List ℚ),
      solveode (S0, I0, R0) (beta, gamma, tmax) = some (ts, Ss, Is, Rs) →
      ∀ i : ℕ, i < tmax →
        Ss.getD i 0 + Is.getD i 0 + Rs.getD i 0 = S0 + I0 + R0) := by
  constructor
  · exact fun t y beta gamma d h => sir_ode_some_sum t y beta gamma d h
  · intro S0 I0 R0 beta gamma tmax ts Ss Is Rs h i hi
    obtain ⟨ys, hg, hts, hSs, hIs, hRs⟩ :=
      solveode_eq S0 I0 R0 beta gamma tmax ts Ss Is Rs h
    have hlen := odeGrid_length _ tmax 0 (S0, I0, R0) ys hg
    have hi' : i < ys.length := by omega
    subst hSs hIs hRs
    rw [getD_map_lt _ ys i (0, 0, 0) 0 hi', getD_map_lt _ ys i (0, 0, 0) 0 hi',
      getD_map_lt _ ys i (0, 0, 0) 0 hi']
    exact odeGrid_conserves _ (fun t y d hd => sir_ode_some_sum t y beta gamma d hd)
      tmax 0 _ ys hg (ys.getD i (0, 0, 0)) (getD_mem_of_lt ys i (0, 0, 0) hi')

/-- Witness for C3: the derivative sum at state (1, 1, 0) with beta = 2,
gamma = 3, and the sampled compartment sum at step 1 of a concrete run. -/
theorem population_conservation_witness :
    ((-1 : ℚ), (-2 : ℚ), (3 : ℚ)).1 + ((-1 : ℚ), (-2 : ℚ), (3 : ℚ)).2.1 +
        ((-1 : ℚ), (-2 : ℚ), (3 : ℚ)).2.2 = 0 ∧
    (List.replicate 2 (1 : ℚ)).getD 1 0 + (List.replicate 2 (0 : ℚ)).getD 1 0 +
        (List.replicate 2 (0 : ℚ)).getD 1 0 = 1 + 0 + 0 := by
  have hderiv : sir_ode 0 ((1 : ℚ), 1, 0) 2 3 = some (-1, -2, 3) := by
    norm_num [sir_ode]
  have hfix : ∀ tq : ℚ, (fun t y => sir_ode t y 2 3) tq ((1 : ℚ), 0, 0) =
      some (0, 0, 0) := fun tq => sir_ode_zero_I tq 1 0 2 3 (by norm_num)
  have hrun : solveode ((1 : ℚ), 0, 0) (2, 3, 2) =
      some ((List.range 2).map (fun k : ℕ => (k : ℚ)),
            List.replicate 2 (1 : ℚ), List.replicate 2 (0 : ℚ),
            List.replicate 2 (0 : ℚ)) := by
    simp only [solveode]
    simp only [odeGrid_const_of_fixed (fun t y => sir_ode t y 2 3) ((1 : ℚ), 0, 0) hfix]
    simp [List.map_replicate]
  exact ⟨population_conservation.1 0 (1, 1, 0) 2 3 (-1, -2, 3) hderiv,
    population_conservation.2 1 0 0 2 3 2 _ _ _ _ hrun 1 (by norm_num)⟩

/-- Claim C4: for every initial state, parameters and integer horizon tmax,
a successful `solveode` run returns four series t, S, I, R all of length
exactly tmax, with t being the integer time steps 0, 1, ..., tmax - 1. -/
theorem solveode_sample_count (SIR : SIRState) (beta gamma : ℚ) (tmax : ℕ)
    (ts Ss Is Rs : List ℚ)
    (h : solveode SIR (beta, gamma, tmax) = some (ts, Ss, Is, Rs)) :
    ts.length = tmax ∧ Ss.length = tmax ∧ Is.length = tmax ∧ Rs.length = tmax ∧
      ts = (List.range tmax).map (fun k : ℕ => (k : ℚ)) := by
  obtain ⟨S0, I0, R0⟩ := SIR
  obtain ⟨ys, hg, hts, hSs, hIs, hRs⟩ :=
    solveode_eq S0 I0 R0 beta gamma tmax ts Ss Is Rs h
  obtain ⟨h1, h2, h3, h4⟩ := solveode_len S0 I0 R0 beta gamma tmax ts Ss Is Rs h
  exact ⟨h1, h2, h3, h4, hts⟩

/-- Witness for C4 with tmax = 30, as in the spec scenario: the run from
(1, 0, 0) with beta = gamma = 0 returns exactly 30 samples of each series. -/
theorem solveode_sample_count_witness :
    ((List.range 30).map (fun k : ℕ => (k : ℚ))).length = 30 ∧
    (List.replicate 30 (1 : ℚ)).length = 30 ∧
    (List.replicate 30 (0 : ℚ)).length = 30 ∧
    (List.replicate 30 (0 : ℚ)).length = 30 ∧
    (List.range 30).map (fun k : ℕ => (k : ℚ)) =
      (List.range 30).map (fun k : ℕ => (k : ℚ)) := by
  have hfix : ∀ tq : ℚ, (fun t y => sir_ode t y 0 0) tq ((1 : ℚ), 0, 0) =
      some (0, 0, 0) := fun tq => sir_ode_zero_I tq 1 0 0 0 (by norm_num)
  have hrun : solveode ((1 : ℚ), 0, 0) (0, 0, 30) =
      some ((List.range 30).map (fun k : ℕ => (k : ℚ)),
            List.replicate 30 (1 : ℚ), List.replicate 30 (0 : ℚ),
            List.replicate 30 (0 : ℚ)) := by
    simp only [solveode]
    simp only [odeGrid_const_of_fixed (fun t y => sir_ode t y 0 0) ((1 : ℚ), 0, 0) hfix]
    simp [List.map_replicate]
  exact solveode_sample_count (1, 0, 0) 0 0 30 _ _ _ _ hrun

/-- Claim C6: zero-infection fixed point: `sir_ode` returns the zero
derivative triple whenever I = 0 (and the population is nonzero), and
integrating from a state with I0 = 0 yields I(t) = 0 with S(t), R(t) fixed
at their initial values at every sampled step. -/
theorem zero_infection_fixed_point :
    (∀ (t S R beta gamma : ℚ), S + R ≠ 0 →
      sir_ode t (S, 0, R) beta gamma = some (0, 0, 0)) ∧
    (∀ (S0 R0 beta gamma : ℚ) (tmax : ℕ), S0 + R0 ≠ 0 →
      solveode (S0, 0, R0) (beta, gamma, tmax) =
        some ((List.range tmax).map (fun k : ℕ => (k : ℚ)),
              List.replicate tmax S0, List.replicate tmax 0,
              List.replicate tmax R0)) := by
  constructor
  · exact sir_ode_zero_I
  · intro S0 R0 beta gamma tmax h
    have hfix : ∀ tq : ℚ, (fun t y => sir_ode t y beta gamma) tq (S0, 0, R0) =
        some (0, 0, 0) := fun tq => sir_ode_zero_I tq S0 R0 beta gamma h
    simp only [solveode]
    simp only [odeGrid_const_of_fixed (fun t y => sir_ode t y beta gamma) (S0, 0, R0) hfix]
    simp [List.map_replicate]

/-- Witness for C6 at the state (5, 0, 2) with beta = 3, gamma = 4 and
horizon 2. -/
theorem zero_infection_fixed_point_witness :
    sir_ode 0 ((5 : ℚ), 0, 2) 3 4 = some (0, 0, 0) ∧
    solveode ((5 : ℚ), 0, 2) (3, 4, 2) =
      some ((List.range 2).map (fun k : ℕ => (k : ℚ)),
            List.replicate 2 (5 : ℚ), List.replicate 2 (0 : ℚ),
            List.replicate 2 (2 : ℚ)) :=
  ⟨zero_infection_fixed_point.1 0 5 2 3 4 (by norm_num),
   zero_infection_fixed_point.2 5 2 3 4 2 (by norm_num)⟩

/-- Claim C7 counterexample: the claim fails as stated: with gamma = -1 the
run from (10, 1, 0) with horizon 2 succeeds and returns the removed series
[0, -1], whose consecutive samples decrease. -/
theorem removals_monotone_cex :
    solveode ((10 : ℚ), 1, 0) ((0 : ℚ), -1, 2) =
      some ([0, 1], [10, 10], [1, 2], [0, -1]) ∧
    ¬ (([0, -1] : List ℚ).getD 0 0 ≤ ([0, -1] : List ℚ).getD 1 0) := by
  constructor
  · norm_num [solveode, odeGrid, sir_ode, List.range_succ]
  · norm_num

/-- Claim C7 (amended): for every successful integration run of `solveode`
with nonnegative gamma whose sampled infected series is pointwise
nonnegative, the returned removed series R(t) is non-decreasing in t. -/
theorem removals_monotone_amended (S0 I0 R0 beta gamma : ℚ) (tmax : ℕ)
    (ts Ss Is Rs : List ℚ)
    (h : solveode (S0, I0, R0) (beta, gamma, tmax) = some (ts, Ss, Is, Rs))
    (hg : 0 ≤ gamma) (hI : ∀ x ∈ Is, 0 ≤ x) :
    ∀ i : ℕ, i + 1 < Rs.length → Rs.getD i 0 ≤ Rs.getD (i + 1) 0 := by
  intro i hi
  obtain ⟨ys, hgrid, hts, hSs, hIs, hRs⟩ :=
    solveode_eq S0 I0 R0 beta gamma tmax ts Ss Is Rs h
  have hlen := odeGrid_length _ tmax 0 (S0, I0, R0) ys hgrid
  subst hIs hRs
  have hi1 : i + 1 < ys.length := by simpa using hi
  have hi0 : i < ys.length := by omega
  obtain ⟨d, hd, hstep⟩ :=
    odeGrid_chain _ tmax 0 (S0, I0, R0) ys hgrid i (by omega)
  have hdr : d.2.2 = gamma * (ys.getD i (0, 0, 0)).2.1 :=
    sir_ode_dR ((0 + i : ℕ) : ℚ) (ys.getD i (0, 0, 0)) beta gamma d hd
  have hInn : 0 ≤ (ys.getD i (0, 0, 0)).2.1 := by
    have hmm : (ys.map (fun y => y.2.1)).getD i 0 ∈ ys.map (fun y => y.2.1) :=
      getD_mem_of_lt _ i 0 (by simpa using hi0)
    have hx := hI _ hmm
    rwa [getD_map_lt _ ys i (0, 0, 0) 0 hi0] at hx
  have hR1 : (ys.getD (i + 1) (0, 0, 0)).2.2 =
      (ys.getD i (0, 0, 0)).2.2 + d.2.2 := by
    rw [hstep]
  rw [getD_map_lt _ ys i (0, 0, 0) 0 hi0, getD_map_lt _ ys (i + 1) (0, 0, 0) 0 hi1,
    hR1, hdr]
  linarith [mul_nonneg hg hInn]

/-- Witness for the amended C7: a concrete run with gamma = 1 and
nonnegative infected series, checked at the consecutive pair (0, 1). -/
theorem removals_monotone_amended_witness :
    ([0, 1] : List ℚ).getD 0 0 ≤ ([0, 1] : List ℚ).getD 1 0 := by
  have h : solveode ((1 : ℚ), 1, 0) ((0 : ℚ), 1, 2) =
      some ([0, 1], [1, 1], [1, 0], [0, 1]) := by
    norm_num [solveode, odeGrid, sir_ode, List.range_succ]
  exact removals_monotone_amended 1 1 0 0 1 2 [0, 1] [1, 1] [1, 0] [0, 1] h
    (by norm_num) (by norm_num) 0 (by norm_num)

/-- Claim C1: for every trial (beta, gamma, S) and fixed (I0, R0) with
non-empty observed series C, `optSolveOde` runs the integrator with horizon
tmax = len C from starting state (S, I0, R0) with parameters (beta, gamma),
and, the run succeeding, returns the Euclidean norm of the residual vector
whose t-th component is the predicted case count I(t) + R(t) minus the
observed C(t), over the time steps 0 .. len C - 1. -/
theorem optSolveOde_residual_norm (bgS : ℚ × ℚ × ℚ) (I0 R0 : ℚ) (C : List ℚ)
    (ts Ss Is Rs : List ℚ) (hC : C ≠ [])
    (h : solveode (bgS.2.2, I0, R0) (bgS.1, bgS.2.1, C.length) = some (ts, Ss, Is, Rs)) :
    optSolveOde bgS (I0, R0, C) =
      some (Real.sqrt (∑ i in Finset.range C.length,
        (((Is.getD i 0 + Rs.getD i 0 - C.getD i 0 : ℚ) : ℝ)) ^ 2)) := by
  obtain ⟨h1, h2, h3, h4⟩ :=
    solveode_len bgS.2.2 I0 R0 bgS.1 bgS.2.1 C.length ts Ss Is Rs h
  simp only [optSolveOde]
  simp only [h]
  simp only [norm]
  exact congrArg some (congrArg Real.sqrt (residual_sum_sq C Is Rs h3 h4))

/-- Witness for C1 at the trial (0, 0, 1), fixed (I0, R0) = (1, 0) and the
observed series [2, 2]. -/
theorem optSolveOde_residual_norm_witness :
    optSolveOde ((0 : ℚ), 0, 1) (1, 0, [2, 2]) =
      some (Real.sqrt (∑ i in Finset.range ([2, 2] : List ℚ).length,
        ((((([1, 1] : List ℚ).getD i 0 + ([0, 0] : List ℚ).getD i 0 -
          ([2, 2] : List ℚ).getD i 0 : ℚ) : ℝ)) ^ 2))) := by
  have h : solveode (((0 : ℚ), 0, 1).2.2, 1, 0)
      (((0 : ℚ), 0, 1).1, ((0 : ℚ), 0, 1).2.1, ([2, 2] : List ℚ).length) =
      some ([0, 1], [1, 1], [1, 1], [0, 0]) := by
    norm_num [solveode, odeGrid, sir_ode, List.range_succ]
  exact optSolveOde_residual_norm ((0 : ℚ), 0, 1) 1 0 [2, 2] [0, 1] [1, 1] [1, 1] [0, 0]
    (by simp) h

/-- Claim C5: if the derivative-free minimizer inside `parmest` does not
converge (within its bounded iteration budget of 20000 iterations), then
`parmest` fails and terminates the run with exit code 2, returning no
partial or best-effort parameter result. -/
theorem parmest_nonconvergence_exit2 (minimizer : Minimizer) (C : List ℚ) (hC : C ≠ [])
    (hfail : (minimizer
        (fun bgS => optSolveOde bgS
          ((iniguess C.headI).2.2.2.1, (iniguess C.headI).2.2.2.2, C))
        ((iniguess C.headI).1, (iniguess C.headI).2.1, (iniguess C.headI).2.2.1)
        optOptionsMaxiter).success = false) :
    optOptionsMaxiter = 20000 ∧ parmest minimizer C = Except.error 2 := by
  refine ⟨rfl, ?_⟩
  simp only [parmest]
  simp [hfail]

/-- Witness for C5: a minimizer that always reports failure makes `parmest`
return exit code 2 on the series [1]. -/
theorem parmest_nonconvergence_exit2_witness :
    optOptionsMaxiter = 20000 ∧
    parmest (fun _ _ _ => OptResult.mk false (0, 0, 0)) [1] = Except.error 2 :=
  parmest_nonconvergence_exit2 (fun _ _ _ => OptResult.mk false (0, 0, 0)) [1]
    (by simp) rfl

/-- Claim C9: for every region whose filtered case series is empty (zero
matching rows), `loadData` fails with the distinct exit code 3, and the
whole run terminates with exit code 3 whatever the minimizer is — the
parameter estimator and optimizer are never reached. -/
theorem loadData_no_data_exit3 (table : List Row) (region : String)
    (h : (table.filter (fun r => r.region == region)).map (fun r => r.cases) = []) :
    loadData table region = Except.error 3 ∧
    ∀ minimizer : Minimizer, mainFlow table region minimizer = Except.error 3 := by
  have hload : loadData table region = Except.error 3 := by
    simp [loadData, h]
  refine ⟨hload, fun minimizer => ?_⟩
  simp only [mainFlow, hload]

/-- Witness for C9: a one-row table for region china, queried for a region
with no rows. -/
theorem loadData_no_data_exit3_witness :
    loadData [Row.mk "china" 5] "nowhere" = Except.error 3 ∧
    mainFlow [Row.mk "china" 5] "nowhere" (fun _ _ _ => OptResult.mk false (0, 0, 0)) =
      Except.error 3 := by
  have h : ([Row.mk "china" 5].filter (fun r => r.region == "nowhere")).map
      (fun r => r.cases) = [] := by rfl
  exact ⟨(loadData_no_data_exit3 _ _ h).1, (loadData_no_data_exit3 _ _ h).2 _⟩

end CoronaSir
